import Mathlib

set_option maxRecDepth 6000

/-!
Verification of the RAM-disk file store (`fs_ramdisk.h` / `fs_ramdisk.cpp`).

The store is embedded shallowly: the superblock counters become `Nat` fields
(the C++ fields are `u32`; none of the operations verified here can make a
counter wrap, every subtraction is guarded by the comparison the code performs
first), the Allocation Table (FAT) becomes a `List Nat` of length
`total_blocks` (one byte per block, 0 = free), the File Directory becomes a
`List FileEntry` (64 entries after a format), and the Data Region becomes a
total function from byte offsets to byte values.  Out-of-range FAT writes,
which in the C++ would scribble over neighbouring structures (undefined
behaviour on the raw region), are modelled as no-ops of `List.set`.
-/

namespace RAMDisk

/-- `RAMDISK_BLOCK_SIZE` (fs_ramdisk.h). -/
def RAMDISK_BLOCK_SIZE : Nat := 1024

/-- `RAMDISK_MAX_FILES` (fs_ramdisk.h). -/
def RAMDISK_MAX_FILES : Nat := 64

/-- `sizeof(RAMDiskSuperblock)`: `char magic[8]` + 8 `u32` fields + `u8 reserved[476]`
on i386 (4-byte alignment, no padding needed): 8 + 32 + 476 = 516. -/
def superblockSize : Nat := 516

/-- `sizeof(RAMDiskFileEntry)`: `char filename[32]` + 3 `u32` + `u8 type` +
`u8 reserved[15]`: 32 + 12 + 1 + 15 = 60 (4-byte alignment, no padding). -/
def fileEntrySize : Nat := 60

/-- `file_table_size = RAMDISK_MAX_FILES * sizeof(RAMDiskFileEntry)` (initialize). -/
def fileTableSize : Nat := RAMDISK_MAX_FILES * fileEntrySize

/-- Byte offset of the Data Region as the code computes it.  `initialize` sets
`data_blocks = (u8*)(file_table + file_table_size)`: `file_table` has type
`RAMDiskFileEntry*`, so this pointer arithmetic advances
`file_table_size * sizeof(RAMDiskFileEntry)` bytes past the FAT, not
`file_table_size` bytes. -/
def dataRegionOffset (size : Nat) : Nat :=
  superblockSize + size / RAMDISK_BLOCK_SIZE + fileTableSize * fileEntrySize

/-- `total_blocks` as computed by `format`:
`(total_size - (data_blocks - disk_memory)) / RAMDISK_BLOCK_SIZE`
(used only at region sizes where the subtraction does not wrap). -/
def totalBlocksOf (size : Nat) : Nat :=
  (size - dataRegionOffset size) / RAMDISK_BLOCK_SIZE

/-- Modelled from the spec: the layout
`[Layout Descriptor][Allocation Table: size/block_size bytes][File Directory: 64 records][Data Region]`
with the Data Region beginning immediately after the 64-record File Directory
(spec section 6), i.e. the byte offset is descriptor + table + `64 * 60` bytes. -/
def spec_dataRegionOffset (size : Nat) : Nat :=
  superblockSize + size / RAMDISK_BLOCK_SIZE + fileTableSize

/-- Modelled from the spec: `total_blocks` for the layout whose Data Region
starts immediately after the File Directory. -/
def spec_total_blocks (size : Nat) : Nat :=
  (size - spec_dataRegionOffset size) / RAMDISK_BLOCK_SIZE

/-- `RAMDISK_FILENAME_LEN` (fs_ramdisk.h): the name field is 32 bytes
including the terminator, so only names of at most 31 characters fit. -/
def RAMDISK_FILENAME_LEN : Nat := 32

/-- One File Directory record (`RAMDiskFileEntry`).  The `filename` field
holds the *effective* C string read back from the record by `strcmp`: the
bytes from `filename[0]` up to the first zero byte.  For names that fit the
32-byte field this is the stored name itself; for longer names `create_file`
computes the corrupted effective string via `storedFilename` below.  A record
is free iff the effective name is empty (`filename[0] == 0`). -/
structure FileEntry where
  filename : String
  start_block : Nat
  size : Nat
  timestamp : Nat
  type : Nat
  deriving DecidableEq, Repr

/-- A cleared directory record, as written by `format` and `delete_file`. -/
def emptyEntry : FileEntry :=
  { filename := "", start_block := 0, size := 0, timestamp := 0, type := 0 }

/-- The store state: superblock counters, FAT, File Directory and Data Region.
`data` maps a byte offset inside the Data Region to the byte stored there. -/
structure FSState where
  total_blocks : Nat
  free_blocks : Nat
  file_count : Nat
  fat : List Nat
  file_table : List FileEntry
  data : Nat → Nat

/-- `format()`: superblock counters reset, FAT cleared to 0 for
`total_blocks` entries, all 64 directory records cleared.  The block count is
a parameter; `initializeState` instantiates it from a region size. -/
def formatState (n : Nat) : FSState :=
  { total_blocks := n
    free_blocks := n
    file_count := 0
    fat := List.replicate n 0
    file_table := List.replicate RAMDISK_MAX_FILES emptyEntry
    data := fun _ => 0 }

/-- `initialize(base, size)`: carve the layout out of the region, then format. -/
def initializeState (size : Nat) : FSState :=
  formatState (totalBlocksOf size)

/-- `calculate_blocks_needed(file_size)`:
`(file_size + RAMDISK_BLOCK_SIZE - 1) / RAMDISK_BLOCK_SIZE`. -/
def calculate_blocks_needed (file_size : Nat) : Nat :=
  (file_size + RAMDISK_BLOCK_SIZE - 1) / RAMDISK_BLOCK_SIZE

/-- The scan `for i ...: if p(table[i]) return &table[i]`, returning the index
of the first entry satisfying `p`; `i` is the index of the head of `l`. -/
def findIdxAux (p : FileEntry → Bool) : List FileEntry → Nat → Option Nat
  | [], _ => none
  | e :: rest, i => if p e then some i else findIdxAux p rest (i + 1)

/-- `find_file_entry(filename)`: first record with a non-empty name equal to
`filename` (`filename[0] != 0 && strcmp(...) == 0`). -/
def find_file_entry (s : FSState) (filename : String) : Option Nat :=
  findIdxAux (fun e => !(e.filename == "") && e.filename == filename) s.file_table 0

/-- `find_free_file_entry()`: first record whose name is empty. -/
def find_free_file_entry (s : FSState) : Option Nat :=
  findIdxAux (fun e => e.filename == "") s.file_table 0

/-- The block-collection loop of `create_file`: scan the FAT from block 0
upward and collect the first `needed` free block indices (the loop stops once
`blocks_found == needed`, which is the `take`). -/
def firstFreeBlocks (fat : List Nat) (total needed : Nat) : List Nat :=
  ((List.range total).filter (fun i => fat.getD i 1 == 0)).take needed

/-- The allocation loop of `create_file`: `fat[allocated_blocks[i]] = 1`. -/
def markUsed (fat : List Nat) : List Nat → List Nat
  | [] => fat
  | b :: rest => markUsed (fat.set b 1) rest

/-- The freeing loop of `delete_file`: `fat[start_block + i] = 0` for
`i = 0 .. blocks-1` (an index past the end of the table is modelled as a
no-op; the C++ would write past the FAT). -/
def clearRun (fat : List Nat) (start : Nat) : Nat → List Nat
  | 0 => fat
  | k + 1 => clearRun (fat.set start 0) (start + 1) k

/-- The little-endian bytes of the `w`-byte machine integer `n`, as stored in
the record's `u32` fields. -/
def leBytes (w n : Nat) : List Nat :=
  match w with
  | 0 => []
  | w' + 1 => n % 256 :: leBytes w' (n / 256)

/-- The bytes of a C string read from a byte sequence: everything up to (not
including) the first zero byte. -/
def cStringOfBytes : List Nat → List Nat
  | [] => []
  | b :: rest => if b = 0 then [] else b :: cStringOfBytes rest

/-- The effective name string a record holds after `create_file` fills it.
`copy_str(entry->filename, filename)` has no bounds check: a name of at most
31 characters fits the 32-byte field with its terminator and is stored as is.
A longer name overruns the field; `create_file` then assigns `start_block`,
`size`, `timestamp = 0` and `type = 0`, overwriting bytes 32..44 of the
record (including the overflowed terminator), so the effective C string later
read by `strcmp` is the first 32 name characters followed by the little-endian
bytes of `start_block` and `size` up to the first zero byte — `timestamp`'s
first byte is zero, so the string always ends inside the record.  (A name of
60 or more characters additionally spills past the 60-byte record into its
neighbour; like the other raw out-of-range writes this is undefined behaviour
on the region and outside this byte-level model.) -/
def storedFilename (name : String) (start_block size : Nat) : String :=
  if name.length < RAMDISK_FILENAME_LEN then name
  else String.mk (name.data.take RAMDISK_FILENAME_LEN ++
    (cStringOfBytes (leBytes 4 start_block ++ leBytes 4 size)).map Char.ofNat)

/-- The copy loop of `create_file`: for each allocated block (in the order the
blocks were collected) copy the next `min(size - bytes_copied, block_size)`
payload bytes to that block's byte range; stops when the payload is exhausted. -/
def copyData (data : Nat → Nat) (payload : List Nat) : List Nat → Nat → (Nat → Nat)
  | [], _ => data
  | b :: rest, off =>
    if off < payload.length then
      let n := min (payload.length - off) RAMDISK_BLOCK_SIZE
      let data' : Nat → Nat := fun a =>
        if b * RAMDISK_BLOCK_SIZE ≤ a ∧ a < b * RAMDISK_BLOCK_SIZE + n then
          payload.getD (off + (a - b * RAMDISK_BLOCK_SIZE)) 0
        else data a
      copyData data' payload rest (off + n)
    else data

/-- `delete_file(filename)`: resolve the name; if absent return false and leave
the state alone; otherwise free `calculate_blocks_needed(size)` FAT entries
starting at `start_block`, clear the record, decrement `file_count` and add the
freed count to `free_blocks`. -/
def delete_file (s : FSState) (filename : String) : FSState × Bool :=
  match find_file_entry s filename with
  | none => (s, false)
  | some i =>
    let e := s.file_table.getD i emptyEntry
    let blocks := calculate_blocks_needed e.size
    ({ s with
        fat := clearRun s.fat e.start_block blocks
        file_table := s.file_table.set i emptyEntry
        file_count := s.file_count - 1
        free_blocks := s.free_blocks + blocks }, true)

/-- The overwrite preamble of `create_file`: if a record with this name exists
it is deleted first. -/
def preCreateState (s : FSState) (filename : String) : FSState :=
  if (find_file_entry s filename).isSome then (delete_file s filename).1 else s

/-- The block list `create_file` allocates for this call (the contents of its
`allocated_blocks` array): the first free blocks of the FAT *after* the
overwrite preamble has run. -/
def allocatedBlocksFor (s : FSState) (filename : String) (payload : List Nat) : List Nat :=
  firstFreeBlocks (preCreateState s filename).fat (preCreateState s filename).total_blocks
    (calculate_blocks_needed payload.length)

/-- `create_file(filename, data, size)`.  The C++ rejects only a null name
pointer, a null data pointer and `size == 0`; an *empty* name string passes the
check.  Then: delete any existing record with this name; find a free directory
slot (fail if none); fail if more blocks are needed than `free_blocks`; collect
the first free blocks (fail if fewer than needed are found); mark them used,
fill the record (`start_block` = first allocated block; the name field receives
the effective string `storedFilename` leaves after `copy_str`'s unchecked copy
and the subsequent field assignments), copy the payload, and update the
superblock counters.  Failures after the overwrite preamble return the
post-preamble state, exactly as the C++ returns after the deletion. -/
def create_file (s : FSState) (filename : String) (payload : List Nat) : FSState × Bool :=
  if payload.length = 0 then (s, false)
  else
    let s1 := preCreateState s filename
    match find_free_file_entry s1 with
    | none => (s1, false)
    | some idx =>
      let needed := calculate_blocks_needed payload.length
      if needed > s1.free_blocks then (s1, false)
      else
        let alloc := firstFreeBlocks s1.fat s1.total_blocks needed
        if alloc.length < needed then (s1, false)
        else
          ({ total_blocks := s1.total_blocks
             free_blocks := s1.free_blocks - needed
             file_count := s1.file_count + 1
             fat := markUsed s1.fat alloc
             file_table := s1.file_table.set idx
               { filename := storedFilename filename (alloc.headD 0) payload.length
                 start_block := alloc.headD 0
                 size := payload.length
                 timestamp := 0
                 type := 0 }
             data := copyData s1.data payload alloc 0 }, true)

/-- `read_file(filename, buffer, buffer_size)`: resolve the name (fail if
absent), fail if the buffer is smaller than the record's size, else copy
`size` bytes from `start_block * RAMDISK_BLOCK_SIZE` (blocks assumed
contiguous) into the front of the buffer.  The buffer is the third component;
the first component is the store, which the code never writes. -/
def read_file (s : FSState) (filename : String) (buffer : List Nat) :
    FSState × Bool × List Nat :=
  match find_file_entry s filename with
  | none => (s, false, buffer)
  | some i =>
    let e := s.file_table.getD i emptyEntry
    if buffer.length < e.size then (s, false, buffer)
    else
      (s, true,
        (List.range e.size).map (fun j => s.data (e.start_block * RAMDISK_BLOCK_SIZE + j))
          ++ buffer.drop e.size)

/-- `get_file_info(filename, *size, *timestamp)`: the caller's current values
are passed in; the code overwrites them only when the record is found. -/
def get_file_info (s : FSState) (filename : String) (size0 timestamp0 : Nat) :
    Nat × Nat :=
  match find_file_entry s filename with
  | none => (size0, timestamp0)
  | some i =>
    let e := s.file_table.getD i emptyEntry
    (e.size, e.timestamp)

/-- Number of free blocks recorded in the Allocation Table. -/
def countZeros (fat : List Nat) : Nat := fat.countP (fun b => b == 0)

/-- Number of live (non-empty-name) File Directory records. -/
def countLive (table : List FileEntry) : Nat :=
  table.countP (fun e => !(e.filename == ""))

/-- States reachable from a freshly initialized store by any sequence of
`create_file` / `delete_file` calls. -/
inductive Reachable : FSState → Prop
  | init (size : Nat) : Reachable (initializeState size)
  | create (s : FSState) (name : String) (payload : List Nat) :
      Reachable s → Reachable (create_file s name payload).1
  | delete (s : FSState) (name : String) :
      Reachable s → Reachable (delete_file s name).1

/-! ### Helper lemmas about the scan and table primitives -/

theorem findIdxAux_none (p : FileEntry → Bool) :
    ∀ (l : List FileEntry) (i : Nat), findIdxAux p l i = none →
      ∀ m, m < l.length → p (l.getD m emptyEntry) = false := by
  intro l
  induction l with
  | nil => intro i _ m hm; simp at hm
  | cons e rest ih =>
    intro i h m hm
    unfold findIdxAux at h
    by_cases hp : p e
    · simp [hp] at h
    · simp [hp] at h
      cases m with
      | zero => simpa using hp
      | succ m' => exact ih (i + 1) h m' (by simpa using hm)

theorem findIdxAux_some (p : FileEntry → Bool) :
    ∀ (l : List FileEntry) (i j : Nat), findIdxAux p l i = some j →
      i ≤ j ∧ j - i < l.length ∧ p (l.getD (j - i) emptyEntry) = true ∧
        ∀ m, m < j - i → p (l.getD m emptyEntry) = false := by
  intro l
  induction l with
  | nil => intro i j h; simp [findIdxAux] at h
  | cons e rest ih =>
    intro i j h
    unfold findIdxAux at h
    by_cases hp : p e
    · simp [hp] at h
      subst h
      refine ⟨Nat.le_refl i, by simp, by simpa using hp, ?_⟩
      intro m hm; omega
    · simp [hp] at h
      obtain ⟨h1, h2, h3, h4⟩ := ih (i + 1) j h
      refine ⟨by omega, by simp; omega, ?_, ?_⟩
      · have : j - i = (j - (i + 1)) + 1 := by omega
        rw [this]; simpa using h3
      · intro m hm
        cases m with
        | zero => simpa using hp
        | succ m' =>
          simp only [List.getD_cons_succ]
          exact h4 m' (by omega)

theorem findIdxAux_of (p : FileEntry → Bool) :
    ∀ (l : List FileEntry) (i k : Nat), k < l.length →
      p (l.getD k emptyEntry) = true →
      (∀ m, m < k → p (l.getD m emptyEntry) = false) →
      findIdxAux p l i = some (i + k) := by
  intro l
  induction l with
  | nil => intro i k hk; simp at hk
  | cons e rest ih =>
    intro i k hk hp hprev
    unfold findIdxAux
    cases k with
    | zero => simp at hp; simp [hp]
    | succ k' =>
      have he : p e = false := by simpa using hprev 0 (Nat.succ_pos k')
      simp [he]
      have := ih (i + 1) k' (by simpa using hk) (by simpa using hp)
        (fun m hm => by simpa using hprev (m + 1) (by omega))
      rw [this]; congr 1; omega

theorem getD_set_ne {α : Type} (a d : α) :
    ∀ (l : List α) (i j : Nat), i ≠ j → (l.set i a).getD j d = l.getD j d := by
  intro l
  induction l with
  | nil => intro i j _; simp
  | cons x rest ih =>
    intro i j hij
    cases i with
    | zero =>
      cases j with
      | zero => exact absurd rfl hij
      | succ j' => simp
    | succ i' =>
      cases j with
      | zero => simp
      | succ j' => simpa using ih i' j' (by omega)

theorem getD_set_self {α : Type} (a d : α) :
    ∀ (l : List α) (i : Nat), i < l.length → (l.set i a).getD i d = a := by
  intro l
  induction l with
  | nil => intro i hi; simp at hi
  | cons x rest ih =>
    intro i hi
    cases i with
    | zero => simp
    | succ i' => simpa using ih i' (by simpa using hi)

theorem countZeros_set_one :
    ∀ (l : List Nat) (i : Nat), i < l.length → l.getD i 1 = 0 →
      countZeros l = countZeros (l.set i 1) + 1 := by
  intro l
  induction l with
  | nil => intro i hi; simp at hi
  | cons x rest ih =>
    intro i hi hx
    cases i with
    | zero =>
      simp only [List.getD_cons_zero] at hx
      subst hx
      simp [countZeros, List.countP_cons]
    | succ i' =>
      simp only [List.getD_cons_succ] at hx
      have := ih i' (by simpa using hi) hx
      simp only [countZeros, List.set_cons_succ, List.countP_cons] at *
      omega

theorem countZeros_set_zero :
    ∀ (l : List Nat) (i : Nat), i < l.length → l.getD i 1 ≠ 0 →
      countZeros (l.set i 0) = countZeros l + 1 := by
  intro l
  induction l with
  | nil => intro i hi; simp at hi
  | cons x rest ih =>
    intro i hi hx
    cases i with
    | zero =>
      simp only [List.getD_cons_zero] at hx
      simp [countZeros, List.countP_cons, hx]
    | succ i' =>
      simp only [List.getD_cons_succ] at hx
      have := ih i' (by simpa using hi) hx
      simp only [countZeros, List.set_cons_succ, List.countP_cons] at *
      omega

theorem markUsed_length :
    ∀ (bs fat : List Nat), (markUsed fat bs).length = fat.length := by
  intro bs
  induction bs with
  | nil => intro fat; rfl
  | cons b rest ih =>
    intro fat
    show (markUsed (fat.set b 1) rest).length = fat.length
    rw [ih]; simp

theorem markUsed_count :
    ∀ (bs fat : List Nat), bs.Pairwise (· ≠ ·) →
      (∀ b ∈ bs, b < fat.length ∧ fat.getD b 1 = 0) →
      countZeros fat = countZeros (markUsed fat bs) + bs.length := by
  intro bs
  induction bs with
  | nil => intro fat _ _; rfl
  | cons b rest ih =>
    intro fat hpw hmem
    have hb := hmem b (List.mem_cons_self b rest)
    have hstep : countZeros fat = countZeros (fat.set b 1) + 1 :=
      countZeros_set_one fat b hb.1 hb.2
    have hne : ∀ b' ∈ rest, b ≠ b' := (List.pairwise_cons.mp hpw).1
    have hmem' : ∀ b' ∈ rest, b' < (fat.set b 1).length ∧ (fat.set b 1).getD b' 1 = 0 := by
      intro b' hb'
      have h1 := hmem b' (List.mem_cons_of_mem b hb')
      refine ⟨by simpa using h1.1, ?_⟩
      rw [getD_set_ne 1 1 fat b b' (hne b' hb')]
      exact h1.2
    have := ih (fat.set b 1) (List.pairwise_cons.mp hpw).2 hmem'
    show countZeros fat = countZeros (markUsed (fat.set b 1) rest) + (rest.length + 1)
    omega

theorem clearRun_length :
    ∀ (k : Nat) (fat : List Nat) (start : Nat),
      (clearRun fat start k).length = fat.length := by
  intro k
  induction k with
  | zero => intro fat start; rfl
  | succ k' ih =>
    intro fat start
    show (clearRun (fat.set start 0) (start + 1) k').length = fat.length
    rw [ih]; simp

theorem clearRun_count :
    ∀ (k : Nat) (fat : List Nat) (start : Nat),
      (∀ j, j < k → start + j < fat.length ∧ fat.getD (start + j) 1 ≠ 0) →
      countZeros (clearRun fat start k) = countZeros fat + k := by
  intro k
  induction k with
  | zero => intro fat start _; rfl
  | succ k' ih =>
    intro fat start hrun
    have h0 := hrun 0 (Nat.succ_pos k')
    simp only [Nat.add_zero] at h0
    have hstep : countZeros (fat.set start 0) = countZeros fat + 1 :=
      countZeros_set_zero fat start h0.1 h0.2
    have hrun' : ∀ j, j < k' → (start + 1) + j < (fat.set start 0).length ∧
        (fat.set start 0).getD ((start + 1) + j) 1 ≠ 0 := by
      intro j hj
      have h1 := hrun (j + 1) (by omega)
      constructor
      · simp; omega
      · rw [getD_set_ne 0 1 fat start ((start + 1) + j) (by omega)]
        have : start + (j + 1) = (start + 1) + j := by omega
        rw [this] at h1
        exact h1.2
    show countZeros (clearRun (fat.set start 0) (start + 1) k') = countZeros fat + (k' + 1)
    rw [ih (fat.set start 0) (start + 1) hrun', hstep]
    omega

theorem firstFreeBlocks_pairwise (fat : List Nat) (total needed : Nat) :
    (firstFreeBlocks fat total needed).Pairwise (· ≠ ·) := by
  have h1 : (List.range total).Pairwise (· < ·) := List.pairwise_lt_range total
  have h2 : ((List.range total).filter (fun i => fat.getD i 1 == 0)).Sublist (List.range total) :=
    List.filter_sublist _
  have h3 : (firstFreeBlocks fat total needed).Sublist
      ((List.range total).filter (fun i => fat.getD i 1 == 0)) := List.take_sublist _ _
  exact ((h1.sublist (h3.trans h2))).imp (fun h => Nat.ne_of_lt h)

theorem firstFreeBlocks_mem (fat : List Nat) (total needed b : Nat)
    (hb : b ∈ firstFreeBlocks fat total needed) : b < total ∧ fat.getD b 1 = 0 := by
  have h1 : b ∈ (List.range total).filter (fun i => fat.getD i 1 == 0) :=
    List.take_subset _ _ hb
  rw [List.mem_filter] at h1
  exact ⟨List.mem_range.mp h1.1, by simpa using h1.2⟩

theorem firstFreeBlocks_length_le (fat : List Nat) (total needed : Nat) :
    (firstFreeBlocks fat total needed).length ≤ needed := by
  simp [firstFreeBlocks]

theorem countZeros_replicate (n : Nat) : countZeros (List.replicate n 0) = n := by
  induction n with
  | zero => rfl
  | succ n' ih => simp [List.replicate_succ, countZeros, List.countP_cons] at *; omega

theorem findIdxAux_eq_none (p : FileEntry → Bool) :
    ∀ (l : List FileEntry) (i : Nat), (∀ e ∈ l, p e = false) → findIdxAux p l i = none := by
  intro l
  induction l with
  | nil => intro i _; rfl
  | cons e rest ih =>
    intro i h
    have he := h e (List.mem_cons_self e rest)
    unfold findIdxAux
    simp [he]
    exact ih (i + 1) (fun e' he' => h e' (List.mem_cons_of_mem e he'))

theorem find_file_entry_eq_none (s : FSState) (name : String)
    (h : ∀ e ∈ s.file_table, e.filename = "" ∨ e.filename ≠ name) :
    find_file_entry s name = none := by
  apply findIdxAux_eq_none
  intro e he
  rcases h e he with h1 | h1 <;> simp [h1]

/-! ### Claim theorems -/

/-- C3: evaluating the layout math at the 1,048,576-byte default region.  The
code's `data_blocks = (u8*)(file_table + file_table_size)` advances the
`RAMDiskFileEntry*` by `file_table_size * sizeof(RAMDiskFileEntry)` bytes, so
the Data Region starts at byte 231,940 instead of immediately after the File
Directory (byte 5,380), and `total_blocks` is 797 instead of the
1018 = 1024 − 6 overhead blocks the spec layout dictates. -/
theorem C3_layout_eval :
    totalBlocksOf 1048576 = 797 ∧
    dataRegionOffset 1048576 = 231940 ∧
    spec_dataRegionOffset 1048576 = 5380 ∧
    spec_total_blocks 1048576 = 1018 ∧
    1024 - (spec_dataRegionOffset 1048576 + RAMDISK_BLOCK_SIZE - 1) / RAMDISK_BLOCK_SIZE = 1018 ∧
    totalBlocksOf 1048576 ≠ 1018 := by
  refine ⟨by decide, by decide, by decide, by decide, by decide, by decide⟩

/-- A one-block store whose single block is held by a live file `"a"`
(`free_blocks = 0`), used to refute claim C5. -/
def c5PriorState : FSState :=
  { total_blocks := 1, free_blocks := 0, file_count := 1,
    fat := [1],
    file_table := { filename := "a", start_block := 0, size := 1,
                    timestamp := 0, type := 0 } :: List.replicate 63 emptyEntry,
    data := fun _ => 0 }

/-- C5 counterexample: with a live record named `"a"` already present,
a `create_file` whose payload needs more blocks than `free_blocks` returns
`false` but does *not* leave the File Directory as it was: the overwrite
preamble has already deleted the record before the space check. -/
theorem C5_counterexample :
    (∃ e ∈ c5PriorState.file_table, e.filename = "a") ∧
    calculate_blocks_needed (List.replicate 1025 6).length > c5PriorState.free_blocks ∧
    (create_file c5PriorState "a" (List.replicate 1025 6)).2 = false ∧
    (create_file c5PriorState "a" (List.replicate 1025 6)).1.file_table ≠
      c5PriorState.file_table := by
  refine ⟨by decide, by decide, by decide, by decide⟩

/-- C5 (amended): a `create_file` whose payload needs more blocks than
`free_blocks` fails and leaves the whole state unchanged, *provided no live
record with that name existed* (otherwise the overwrite preamble deletes it
before the space check, as the counterexample shows). -/
theorem C5_insufficient_space_unchanged (s : FSState) (name : String) (payload : List Nat)
    (habsent : ∀ e ∈ s.file_table, e.filename = "" ∨ e.filename ≠ name)
    (hspace : calculate_blocks_needed payload.length > s.free_blocks) :
    create_file s name payload = (s, false) := by
  have hfind := find_file_entry_eq_none s name habsent
  unfold create_file preCreateState
  rw [hfind]
  by_cases hp : payload.length = 0
  · simp [hp]
  · simp only [hp, if_false, Option.isSome_none, Bool.false_eq_true, if_neg, ite_false]
    cases hfree : find_free_file_entry s with
    | none => simp
    | some idx => simp [hspace]

/-- C5 witness: a concrete instance of the amended theorem. -/
theorem C5_witness :
    create_file (formatState 1) "q" (List.replicate 1025 6) = (formatState 1, false) :=
  C5_insufficient_space_unchanged (formatState 1) "q" (List.replicate 1025 6)
    (by decide) (by simp only [List.length_replicate]; decide)

/-- C6: with 64 live records in the File Directory, `create_file` with a 65th
distinct name fails and returns the state unchanged, marking no FAT entry and
leaving `free_blocks` as it was. -/
theorem C6_directory_full (s : FSState) (name : String) (payload : List Nat)
    (_hlen : s.file_table.length = RAMDISK_MAX_FILES)
    (hlive : ∀ e ∈ s.file_table, e.filename ≠ "")
    (hdistinct : ∀ e ∈ s.file_table, e.filename ≠ name) :
    create_file s name payload = (s, false) := by
  have hfind : find_file_entry s name = none :=
    find_file_entry_eq_none s name (fun e he => Or.inr (hdistinct e he))
  have hfree : find_free_file_entry s = none := by
    apply findIdxAux_eq_none
    intro e he
    simp [hlive e he]
  unfold create_file preCreateState
  rw [hfind]
  by_cases hp : payload.length = 0
  · simp [hp]
  · simp [hp, hfree]

/-- C6 witness: a directory of 64 live records, each named `"x"`, rejects a
create for the distinct name `"y"` without any state change. -/
theorem C6_witness :
    create_file
      { total_blocks := 8, free_blocks := 8, file_count := 64,
        fat := List.replicate 8 0,
        file_table := List.replicate 64
          { filename := "x", start_block := 0, size := 1, timestamp := 0, type := 0 },
        data := fun _ => 0 } "y" [1] =
    ({ total_blocks := 8, free_blocks := 8, file_count := 64,
       fat := List.replicate 8 0,
       file_table := List.replicate 64
         { filename := "x", start_block := 0, size := 1, timestamp := 0, type := 0 },
       data := fun _ => 0 }, false) :=
  C6_directory_full _ "y" [1] (by decide) (by decide) (by decide)

/-- C7: evaluation at the failing input.  `create_file` only null-checks its
name argument, so the *empty* name is accepted: on a freshly formatted
one-block store, `create_file "" [42]` returns `true`, allocates the block and
bumps `file_count` — the claim (and spec section 7) say it must fail with
`InvalidArgument` and change nothing. -/
theorem C7_empty_name_accepted :
    (create_file (formatState 1) "" [42]).2 = true ∧
    (create_file (formatState 1) "" [42]).1.free_blocks = 0 ∧
    (create_file (formatState 1) "" [42]).1.file_count = 1 := by
  refine ⟨by decide, by decide, by decide⟩

/-- C4: evaluation at the failing input.  After the reachable sequence
`initialize(234217)` then `create_file "" [42]`, the superblock says
`file_count = 1` although every File Directory record still has an empty name
(`copy_str` wrote the empty string into the chosen slot), so `file_count`
differs from the number of non-empty records. -/
theorem C4_count_diverges :
    Reachable (create_file (initializeState 234217) "" [42]).1 ∧
    (create_file (initializeState 234217) "" [42]).1.file_count = 1 ∧
    countLive (create_file (initializeState 234217) "" [42]).1.file_table = 0 :=
  ⟨Reachable.create _ "" [42] (Reachable.init 234217), by decide, by decide⟩

/-- C8 counterexample: `get_file_info` on an absent name writes nothing, so the
caller's incoming values (here 5 and 7) survive — the outputs are not set to
zero as the claim states. -/
theorem C8_counterexample :
    get_file_info (formatState 1) "a" 5 7 = (5, 7) ∧
    get_file_info (formatState 1) "a" 5 7 ≠ (0, 0) := by
  refine ⟨by decide, by decide⟩

/-- C8 (amended): for a name with no live record, `get_file_info` leaves the
caller's size and timestamp outputs exactly as they were (they are zero only
if the caller zero-initialized them); there is no explicit not-found signal. -/
theorem C8_stat_not_found_unchanged (s : FSState) (name : String) (size0 timestamp0 : Nat)
    (habsent : ∀ e ∈ s.file_table, e.filename = "" ∨ e.filename ≠ name) :
    get_file_info s name size0 timestamp0 = (size0, timestamp0) := by
  have hfind := find_file_entry_eq_none s name habsent
  unfold get_file_info
  rw [hfind]

/-- C8 witness: a concrete instance of the amended theorem. -/
theorem C8_witness : get_file_info (formatState 1) "zzz" 3 4 = (3, 4) :=
  C8_stat_not_found_unchanged (formatState 1) "zzz" 3 4 (by decide)

/-- C9: `read_file` never writes the store: for every state, name and buffer
the store component it returns is the input state, whether the read succeeds
or fails. -/
theorem C9_read_preserves_state (s : FSState) (name : String) (buffer : List Nat) :
    (read_file s name buffer).1 = s := by
  unfold read_file
  cases find_file_entry s name with
  | none => rfl
  | some i =>
    dsimp only
    split <;> rfl

/-- C10: `delete_file` on a name with no live record returns failure and the
state unchanged (superblock, FAT, File Directory and Data Region untouched). -/
theorem C10_delete_not_found (s : FSState) (name : String)
    (habsent : ∀ e ∈ s.file_table, e.filename = "" ∨ e.filename ≠ name) :
    delete_file s name = (s, false) := by
  have hfind := find_file_entry_eq_none s name habsent
  unfold delete_file
  rw [hfind]

/-- C10 witness: deleting a missing name on a freshly formatted store. -/
theorem C10_witness : delete_file (formatState 2) "nofile" = (formatState 2, false) :=
  C10_delete_not_found (formatState 2) "nofile" (by decide)

/-! ### The copy loop on a contiguous run of blocks -/

theorem copyData_untouched (payload : List Nat) :
    ∀ (bs : List Nat) (off : Nat) (data : Nat → Nat) (a : Nat),
      (∀ b ∈ bs, a < b * RAMDISK_BLOCK_SIZE) →
      copyData data payload bs off a = data a := by
  intro bs
  induction bs with
  | nil => intro off data a _; rfl
  | cons b rest ih =>
    intro off data a hlt
    show copyData data payload (b :: rest) off a = data a
    rw [copyData]
    by_cases hoff : off < payload.length
    · simp only [hoff, if_true]
      rw [ih _ _ a (fun b' hb' => hlt b' (List.mem_cons_of_mem b hb'))]
      have hb := hlt b (List.mem_cons_self b rest)
      have hcond : ¬ (b * RAMDISK_BLOCK_SIZE ≤ a ∧
          a < b * RAMDISK_BLOCK_SIZE + min (payload.length - off) RAMDISK_BLOCK_SIZE) := by
        omega
      simp only [hcond, if_false]
    · simp only [hoff, if_false]

theorem copyData_contig (payload : List Nat) :
    ∀ (k start off : Nat) (data : Nat → Nat) (j : Nat),
      payload.length - off ≤ k * RAMDISK_BLOCK_SIZE →
      off ≤ j → j < payload.length →
      copyData data payload (List.range' start k) off
        (start * RAMDISK_BLOCK_SIZE + (j - off)) = payload.getD j 0 := by
  intro k
  induction k with
  | zero =>
    intro start off data j hk hoff hj
    exfalso
    simp only [Nat.zero_mul] at hk
    omega
  | succ k' ih =>
    intro start off data j hk hoff hj
    have hoff' : off < payload.length := by omega
    rw [List.range'_succ]
    rw [copyData]
    simp only [hoff', if_true]
    by_cases hcase : j < off + min (payload.length - off) RAMDISK_BLOCK_SIZE
    · rw [copyData_untouched]
      · have hin : start * RAMDISK_BLOCK_SIZE ≤ start * RAMDISK_BLOCK_SIZE + (j - off) ∧
            start * RAMDISK_BLOCK_SIZE + (j - off) <
              start * RAMDISK_BLOCK_SIZE + min (payload.length - off) RAMDISK_BLOCK_SIZE := by
          omega
        rw [if_pos hin]
        have harg : off + (start * RAMDISK_BLOCK_SIZE + (j - off) - start * RAMDISK_BLOCK_SIZE) = j := by
          omega
        rw [harg]
      · intro b hb
        have hmem := List.mem_range'_1.mp hb
        have hbs : RAMDISK_BLOCK_SIZE = 1024 := rfl
        simp only [hbs] at hcase ⊢
        have hb1 : start + 1 ≤ b := hmem.1
        have hmul : (start + 1) * 1024 ≤ b * 1024 := Nat.mul_le_mul_right _ hb1
        omega
    · have hn : min (payload.length - off) RAMDISK_BLOCK_SIZE = RAMDISK_BLOCK_SIZE := by
        omega
      rw [hn]
      have hk' : payload.length - (off + RAMDISK_BLOCK_SIZE) ≤ k' * RAMDISK_BLOCK_SIZE := by
        have : (k' + 1) * RAMDISK_BLOCK_SIZE = k' * RAMDISK_BLOCK_SIZE + RAMDISK_BLOCK_SIZE := by
          ring
        omega
      have hoff2 : off + RAMDISK_BLOCK_SIZE ≤ j := by omega
      have haddr : start * RAMDISK_BLOCK_SIZE + (j - off) =
          (start + 1) * RAMDISK_BLOCK_SIZE + (j - (off + RAMDISK_BLOCK_SIZE)) := by
        have : (start + 1) * RAMDISK_BLOCK_SIZE = start * RAMDISK_BLOCK_SIZE + RAMDISK_BLOCK_SIZE := by
          ring
        omega
      rw [haddr]
      exact ih (start + 1) (off + RAMDISK_BLOCK_SIZE) _ j hk' hoff2 hj

/-- Shape of a successful `create_file`: the chosen free slot, the guards that
passed, and the resulting state. -/
theorem create_file_success (s : FSState) (name : String) (payload : List Nat)
    (h : (create_file s name payload).2 = true) :
    ∃ idx,
      payload.length ≠ 0 ∧
      find_free_file_entry (preCreateState s name) = some idx ∧
      calculate_blocks_needed payload.length ≤ (preCreateState s name).free_blocks ∧
      (allocatedBlocksFor s name payload).length = calculate_blocks_needed payload.length ∧
      (create_file s name payload).1 =
        { total_blocks := (preCreateState s name).total_blocks
          free_blocks :=
            (preCreateState s name).free_blocks - calculate_blocks_needed payload.length
          file_count := (preCreateState s name).file_count + 1
          fat := markUsed (preCreateState s name).fat (allocatedBlocksFor s name payload)
          file_table := (preCreateState s name).file_table.set idx
            { filename := storedFilename name ((allocatedBlocksFor s name payload).headD 0)
                payload.length
              start_block := (allocatedBlocksFor s name payload).headD 0
              size := payload.length, timestamp := 0, type := 0 }
          data := copyData (preCreateState s name).data payload
            (allocatedBlocksFor s name payload) 0 } := by
  unfold create_file at h ⊢
  by_cases h0 : payload.length = 0
  · simp [h0] at h
  · simp only [h0, if_false] at h ⊢
    cases hfree : find_free_file_entry (preCreateState s name) with
    | none => rw [hfree] at h; simp at h
    | some idx =>
      rw [hfree] at h
      dsimp only at h ⊢
      by_cases hsp :
          calculate_blocks_needed payload.length > (preCreateState s name).free_blocks
      · rw [if_pos hsp] at h; simp at h
      · rw [if_neg hsp] at h ⊢
        by_cases hshort :
            (firstFreeBlocks (preCreateState s name).fat (preCreateState s name).total_blocks
              (calculate_blocks_needed payload.length)).length <
              calculate_blocks_needed payload.length
        · rw [if_pos hshort] at h; simp at h
        · rw [if_neg hshort] at h ⊢
          refine ⟨idx, h0, rfl, by omega, ?_, rfl⟩
          have hle := firstFreeBlocks_length_le (preCreateState s name).fat
            (preCreateState s name).total_blocks (calculate_blocks_needed payload.length)
          unfold allocatedBlocksFor
          omega

/-- C1 counterexample: two names break the claimed round trip even though the
create succeeds, the allocation is the contiguous run `[0]` and the buffer is
large enough.  With the *empty* name (the code null-checks but does not
reject `""`) the new record's name field is empty, so `find_file_entry` never
matches it.  With a *33-character* name, `copy_str` overruns the 32-byte
field; the `start_block = 0` assignment then overwrites the overflowed tail,
so the record effectively holds the 32-character truncation and `strcmp`
misses the full name. -/
theorem C1_counterexample :
    ((create_file (formatState 2) "" [7]).2 = true ∧
      allocatedBlocksFor (formatState 2) "" [7] =
        List.range' 0 (calculate_blocks_needed ([7] : List Nat).length) ∧
      ([7] : List Nat).length ≤ ([0] : List Nat).length ∧
      (read_file (create_file (formatState 2) "" [7]).1 "" [0]).2.1 = false) ∧
    ((create_file (formatState 1) "abcdefghijklmnopqrstuvwxyz0123456" [7]).2 = true ∧
      allocatedBlocksFor (formatState 1) "abcdefghijklmnopqrstuvwxyz0123456" [7] =
        List.range' 0 (calculate_blocks_needed ([7] : List Nat).length) ∧
      ([7] : List Nat).length ≤ ([0] : List Nat).length ∧
      (read_file (create_file (formatState 1) "abcdefghijklmnopqrstuvwxyz0123456" [7]).1
        "abcdefghijklmnopqrstuvwxyz0123456" [0]).2.1 = false) := by
  refine ⟨⟨by decide, by decide, by decide, by decide⟩,
    by decide, by decide, by decide, by decide⟩

/-- C1 (amended): for every store state, every non-empty name of at most 31
characters (one that fits the 32-byte name field with its terminator) and
every non-empty payload, if `create_file` succeeds and the blocks it
allocated form the contiguous run `start .. start + ceil(len/block_size) - 1`,
then reading the name back into a buffer of capacity at least `len` succeeds
and the first `len` buffer bytes are exactly the payload.  (The empty name
and overlong names are excluded by the counterexample: both make the create
succeed while the stored record's name no longer matches, so the read
fails.) -/
theorem C1_roundtrip_contiguous (s : FSState) (name : String)
    (payload buffer : List Nat) (start : Nat)
    (hname : name ≠ "")
    (hfit : name.length < RAMDISK_FILENAME_LEN)
    (hcap : payload.length ≤ buffer.length)
    (hsucc : (create_file s name payload).2 = true)
    (hcontig : allocatedBlocksFor s name payload =
      List.range' start (calculate_blocks_needed payload.length)) :
    (read_file (create_file s name payload).1 name buffer).2.1 = true ∧
    ((read_file (create_file s name payload).1 name buffer).2.2).take payload.length =
      payload := by
  obtain ⟨idx, h0, hfree, hsp, hlen, hstate⟩ := create_file_success s name payload hsucc
  have hsf : storedFilename name ((allocatedBlocksFor s name payload).headD 0)
      payload.length = name := by
    unfold storedFilename
    rw [if_pos hfit]
  rw [hsf] at hstate
  have hidx := findIdxAux_some (fun e => e.filename == "")
    (preCreateState s name).file_table 0 idx
    (by unfold find_free_file_entry at hfree; exact hfree)
  simp only [Nat.sub_zero] at hidx
  obtain ⟨-, hidxlen, hidxfree, hidxprev⟩ := hidx
  have hprev : ∀ m, m < idx →
      (!(((preCreateState s name).file_table.getD m emptyEntry).filename == "") &&
        (((preCreateState s name).file_table.getD m emptyEntry).filename == name)) = false := by
    by_cases hex : (find_file_entry s name).isSome
    · obtain ⟨i1, hi1⟩ := Option.isSome_iff_exists.mp hex
      have hfi := findIdxAux_some (fun e => !(e.filename == "") && e.filename == name)
        s.file_table 0 i1 (by unfold find_file_entry at hi1; exact hi1)
      simp only [Nat.sub_zero] at hfi
      obtain ⟨-, hi1len, hi1match, hi1prev⟩ := hfi
      have hdel : preCreateState s name = (delete_file s name).1 := by
        unfold preCreateState
        rw [if_pos hex]
      have hs1tab : (preCreateState s name).file_table = s.file_table.set i1 emptyEntry := by
        rw [hdel]
        unfold delete_file
        rw [hi1]
      have hle : idx ≤ i1 := by
        by_contra hgt
        push_neg at hgt
        have hcontra := hidxprev i1 hgt
        rw [hs1tab, getD_set_self emptyEntry emptyEntry s.file_table i1 hi1len] at hcontra
        simp [emptyEntry] at hcontra
      intro m hm
      have hmne : i1 ≠ m := by omega
      rw [hs1tab, getD_set_ne emptyEntry emptyEntry s.file_table i1 m hmne]
      exact hi1prev m (by omega)
    · have hnone : find_file_entry s name = none := Option.not_isSome_iff_eq_none.mp hex
      have hs1 : preCreateState s name = s := by
        unfold preCreateState
        rw [hnone]
        simp
      intro m hm
      rw [hs1] at hidxlen ⊢
      exact findIdxAux_none (fun e => !(e.filename == "") && e.filename == name)
        s.file_table 0 (by unfold find_file_entry at hnone; exact hnone) m (by omega)
  have htab : (create_file s name payload).1.file_table =
      (preCreateState s name).file_table.set idx
        { filename := name
          start_block := (allocatedBlocksFor s name payload).headD 0
          size := payload.length, timestamp := 0, type := 0 } := by
    rw [hstate]
  have hfind2 : find_file_entry (create_file s name payload).1 name = some idx := by
    unfold find_file_entry
    rw [htab]
    have happ := findIdxAux_of (fun e => !(e.filename == "") && e.filename == name)
      ((preCreateState s name).file_table.set idx
        { filename := name
          start_block := (allocatedBlocksFor s name payload).headD 0
          size := payload.length, timestamp := 0, type := 0 }) 0 idx
      (by rw [List.length_set]; exact hidxlen)
      (by rw [getD_set_self _ _ _ idx hidxlen]
          dsimp only
          rw [beq_self_eq_true, beq_eq_false_iff_ne.mpr hname]
          rfl)
      (fun m hm => by rw [getD_set_ne _ _ _ idx m (by omega)]; exact hprev m hm)
    simpa using happ
  have hentry : (create_file s name payload).1.file_table.getD idx emptyEntry =
      { filename := name
        start_block := (allocatedBlocksFor s name payload).headD 0
        size := payload.length, timestamp := 0, type := 0 } := by
    rw [htab]
    exact getD_set_self _ _ _ idx hidxlen
  have hne1 : 1 ≤ calculate_blocks_needed payload.length := by
    unfold calculate_blocks_needed
    have hbs : RAMDISK_BLOCK_SIZE = 1024 := rfl
    rw [hbs]
    omega
  have hstart : (allocatedBlocksFor s name payload).headD 0 = start := by
    rw [hcontig]
    cases hcn : calculate_blocks_needed payload.length with
    | zero => rw [hcn] at hne1; omega
    | succ k => rw [List.range'_succ]; rfl
  have hdata : (create_file s name payload).1.data =
      copyData (preCreateState s name).data payload (allocatedBlocksFor s name payload) 0 := by
    rw [hstate]
  unfold read_file
  rw [hfind2]
  dsimp only
  rw [hentry]
  dsimp only
  rw [if_neg (by omega : ¬ buffer.length < payload.length)]
  refine ⟨rfl, ?_⟩
  rw [hstart, hdata, hcontig]
  have hmlen : ((List.range payload.length).map (fun j =>
      copyData (preCreateState s name).data payload
        (List.range' start (calculate_blocks_needed payload.length)) 0
        (start * RAMDISK_BLOCK_SIZE + j))).length = payload.length := by
    rw [List.length_map, List.length_range]
  rw [List.take_left' hmlen]
  apply List.ext_getElem
  · rw [List.length_map, List.length_range]
  · intro i h1 h2
    simp only [List.getElem_map, List.getElem_range]
    have hilen : i < payload.length := by
      rw [List.length_map, List.length_range] at h1
      exact h1
    have hk : payload.length - 0 ≤ calculate_blocks_needed payload.length * RAMDISK_BLOCK_SIZE := by
      unfold calculate_blocks_needed
      have hbs : RAMDISK_BLOCK_SIZE = 1024 := rfl
      rw [hbs]
      omega
    have hcpy := copyData_contig payload (calculate_blocks_needed payload.length) start 0
      (preCreateState s name).data i hk (Nat.zero_le i) hilen
    rw [Nat.sub_zero] at hcpy
    rw [hcpy]
    exact List.getD_eq_getElem payload 0 hilen

/-! ### Space accounting (claim C2) -/

/-- The FAT run a directory record is assumed to own,
`start_block .. start_block + ceil(size/block_size) - 1`, lies inside the
table and is fully marked used. `delete_file` frees exactly this run. -/
def entryRunUsed (s : FSState) (e : FileEntry) : Prop :=
  ∀ j, j < calculate_blocks_needed e.size →
    e.start_block + j < s.fat.length ∧ s.fat.getD (e.start_block + j) 1 ≠ 0

/-- States reachable from a freshly formatted store by create/delete sequences
in which every delete — including the implicit delete performed by an
overwriting create — happens while the deleted record's assumed-contiguous
run is fully marked used.  (Without this restriction `delete_file` can clear
FAT entries that were already free, which desynchronizes `free_blocks`;
see the counterexample.) -/
inductive SafeReachable : FSState → Prop
  | format (n : Nat) : SafeReachable (formatState n)
  | create (s : FSState) (name : String) (payload : List Nat) :
      SafeReachable s →
      (∀ i, find_file_entry s name = some i →
        entryRunUsed s (s.file_table.getD i emptyEntry)) →
      SafeReachable (create_file s name payload).1
  | delete (s : FSState) (name : String) :
      SafeReachable s →
      (∀ i, find_file_entry s name = some i →
        entryRunUsed s (s.file_table.getD i emptyEntry)) →
      SafeReachable (delete_file s name).1

/-- The space-accounting invariant: the FAT has one entry per block, and
`free_blocks` counts its zero entries. -/
def SpaceInv (s : FSState) : Prop :=
  s.fat.length = s.total_blocks ∧ s.free_blocks = countZeros s.fat

theorem delete_preserves_spaceInv (s : FSState) (name : String) (hInv : SpaceInv s)
    (hSafe : ∀ i, find_file_entry s name = some i →
      entryRunUsed s (s.file_table.getD i emptyEntry)) :
    SpaceInv (delete_file s name).1 := by
  unfold delete_file
  cases hfind : find_file_entry s name with
  | none => exact hInv
  | some i =>
    dsimp only
    have hrun := hSafe i hfind
    constructor
    · rw [clearRun_length]
      exact hInv.1
    · dsimp only
      rw [clearRun_count _ _ _ (fun j hj => hrun j hj)]
      have := hInv.2
      omega

theorem create_preserves_spaceInv (s : FSState) (name : String) (payload : List Nat)
    (hInv : SpaceInv s)
    (hSafe : ∀ i, find_file_entry s name = some i →
      entryRunUsed s (s.file_table.getD i emptyEntry)) :
    SpaceInv (create_file s name payload).1 := by
  have hInv1 : SpaceInv (preCreateState s name) := by
    unfold preCreateState
    by_cases hex : (find_file_entry s name).isSome
    · rw [if_pos hex]
      exact delete_preserves_spaceInv s name hInv hSafe
    · rw [if_neg hex]
      exact hInv
  unfold create_file
  by_cases h0 : payload.length = 0
  · simp only [h0, if_true]
    exact hInv
  · simp only [h0, if_false]
    cases hfree : find_free_file_entry (preCreateState s name) with
    | none => exact hInv1
    | some idx =>
      dsimp only
      by_cases hsp :
          calculate_blocks_needed payload.length > (preCreateState s name).free_blocks
      · rw [if_pos hsp]
        exact hInv1
      · rw [if_neg hsp]
        by_cases hshort :
            (firstFreeBlocks (preCreateState s name).fat (preCreateState s name).total_blocks
              (calculate_blocks_needed payload.length)).length <
              calculate_blocks_needed payload.length
        · rw [if_pos hshort]
          exact hInv1
        · rw [if_neg hshort]
          have hpw := firstFreeBlocks_pairwise (preCreateState s name).fat
            (preCreateState s name).total_blocks (calculate_blocks_needed payload.length)
          have hmem : ∀ b ∈ firstFreeBlocks (preCreateState s name).fat
              (preCreateState s name).total_blocks (calculate_blocks_needed payload.length),
              b < (preCreateState s name).fat.length ∧
                (preCreateState s name).fat.getD b 1 = 0 := by
            intro b hb
            have h := firstFreeBlocks_mem (preCreateState s name).fat
              (preCreateState s name).total_blocks (calculate_blocks_needed payload.length) b hb
            exact ⟨by rw [hInv1.1]; exact h.1, h.2⟩
          have hcount := markUsed_count _ _ hpw hmem
          have hle := firstFreeBlocks_length_le (preCreateState s name).fat
            (preCreateState s name).total_blocks (calculate_blocks_needed payload.length)
          constructor
          · rw [markUsed_length]
            exact hInv1.1
          · have := hInv1.2
            dsimp only
            omega

theorem safeReachable_spaceInv : ∀ s : FSState, SafeReachable s → SpaceInv s := by
  intro s h
  induction h with
  | format n =>
    constructor
    · simp [formatState]
    · show (formatState n).free_blocks = countZeros (List.replicate n 0)
      rw [countZeros_replicate]
      exact rfl
  | create s name payload _ hside ih => exact create_preserves_spaceInv s name payload ih hside
  | delete s name _ hside ih => exact delete_preserves_spaceInv s name ih hside

/-- The final state of the fragmentation scenario: create `"a"` (1 block) and
`"b"` (1 block), delete `"a"`, create `"c"` (2 blocks, allocated the
non-contiguous blocks 0 and 2), delete `"b"`, delete `"c"`.  The last delete
clears blocks 0 and 1 — block 1 is already free and block 2 stays marked
used — while adding 2 to `free_blocks`. -/
def c2CexState : FSState :=
  (delete_file (delete_file (create_file (delete_file (create_file (create_file
    (initializeState 234217) "a" [7]).1 "b" [8]).1 "a").1 "c" (List.replicate 1025 7)).1
    "b").1 "c").1

/-- C2 counterexample: a state reachable from a freshly initialized store by
create/delete calls in which `free_blocks = 3` while the Allocation Table has
only 2 zero entries. -/
theorem C2_counterexample :
    Reachable c2CexState ∧ c2CexState.free_blocks ≠ countZeros c2CexState.fat := by
  constructor
  · unfold c2CexState
    exact Reachable.delete _ "c" (Reachable.delete _ "b" (Reachable.create _ "c" _
      (Reachable.delete _ "a" (Reachable.create _ "b" [8] (Reachable.create _ "a" [7]
        (Reachable.init 234217))))))
  · decide

/-- C2 (amended): `free_blocks` equals the number of zero FAT entries in every
state reachable from a freshly formatted store, provided every delete
(including the implicit delete of an overwriting create) runs while the
deleted record's assumed run `start_block .. start_block + blocks - 1` is
inside the table and fully marked used. -/
theorem C2_free_blocks_invariant (s : FSState) (h : SafeReachable s) :
    s.free_blocks = countZeros s.fat :=
  (safeReachable_spaceInv s h).2

/-- C2 witness: the invariant at the concrete reachable state obtained by one
create on a freshly formatted 3-block store. -/
theorem C2_witness :
    (create_file (formatState 3) "a" [7]).1.free_blocks =
      countZeros (create_file (formatState 3) "a" [7]).1.fat :=
  C2_free_blocks_invariant _
    (SafeReachable.create (formatState 3) "a" [7] (SafeReachable.format 3)
      (fun i hi => by
        rw [show find_file_entry (formatState 3) "a" = none by decide] at hi
        exact Option.noConfusion hi))

/-- C1 witness: a two-byte file on a one-block store, allocated the contiguous
run `[0]`, reads back exactly. -/
theorem C1_witness :
    (read_file (create_file (formatState 1) "a" [7, 8]).1 "a" [0, 0]).2.1 = true ∧
    ((read_file (create_file (formatState 1) "a" [7, 8]).1 "a" [0, 0]).2.2).take
      ([7, 8] : List Nat).length = [7, 8] :=
  C1_roundtrip_contiguous (formatState 1) "a" [7, 8] [0, 0] 0
    (by decide) (by decide) (by decide) (by decide) (by decide)

end RAMDisk
